import Mathlib

/-!
Verification of the input-capture / screenshot / upload core of an Electron
screen recorder.  The definitions below are a shallow embedding of the
TypeScript sources:

* `InputService` (src/hooks/useDesktopSources.ts, second document): the action
  normalizer — click counting, drag detection, scroll and hover debouncing.
  Timers (`setTimeout`) are modelled as absolute fire deadlines stored in the
  state; the event loop fires a due timer before handling the next raw event.
* the screenshot capture queue and per-action capture policy of `App`
  (src/unnamed/part_005 and part_006): the promise chain built by `enqueue`
  and the before/during/after capture decisions.
* the upload queue backoff: the implementation file (uploadQueue.ts) is not
  part of the sources, so that component is modelled from the specification.

Numbers: wall-clock milliseconds and screen coordinates are modelled as `Int`.
The source computes `Math.sqrt(dx*dx + dy*dy) < 10`; over integers this is
equivalent to `dx^2 + dy^2 < 10^2`, which is the form used here.
-/

namespace Recorder

/-- Screen coordinates, as carried by raw events and actions. -/
structure Coords where
  x : Int
  y : Int
  deriving Repr, DecidableEq

/-- The action type enum of src/main/types.ts. -/
inductive ActionType
  | click
  | scroll
  | scroll_start
  | scroll_end
  | keypress
  | drag_start
  | drag_end
  | mouseover_start
  | mouseover_end
  | input
  deriving Repr, DecidableEq

/-- Pointer button of `PointerMeta` in src/main/types.ts. -/
inductive PointerButton
  | left
  | right
  | other
  deriving Repr, DecidableEq

/-- The `pointerMeta` record attached to click/drag actions. -/
structure PointerMeta where
  button : PointerButton
  clickCount : Nat
  deriving Repr, DecidableEq

/-- An emitted `Action` (src/main/types.ts).  `actionId`, `keyMeta`,
`inputValue` and the screenshot reference fields are elided: no claim under
check depends on them (`keyMeta` resolution via macosKeyMap is keyboard
metadata only, and screenshot references are attached downstream). -/
structure Action where
  sessionId : String
  type : ActionType
  happenedAt : Int
  relativeTimeMs : Int
  coords : Coords
  pointerMeta : Option PointerMeta := none
  deriving Repr, DecidableEq

/-- The mutable state of the `InputService` class.  Field defaults mirror the
class field initializers.  `scrollTimeout` / `moveTimeout` hold the absolute
wall-clock deadline of the pending `setTimeout` callback (`none` = no pending
timer); `hasCallback` models whether `this.callback` is non-null. -/
structure InputState where
  sessionId : String := ""
  sessionStartTime : Int := 0
  hasCallback : Bool := false
  isRunning : Bool := false
  scrollTimeout : Option Int := none
  isScrolling : Bool := false
  lastScrollCoords : Coords := { x := 0, y := 0 }
  lastClickTime : Int := 0
  lastClickCoords : Coords := { x := 0, y := 0 }
  clickCount : Nat := 0
  isLeftButtonDown : Bool := false
  isDragging : Bool := false
  dragStartCoords : Coords := { x := 0, y := 0 }
  lastDragCoords : Coords := { x := 0, y := 0 }
  moveTimeout : Option Int := none
  isMoving : Bool := false
  lastMoveCoords : Coords := { x := 0, y := 0 }
  deriving Repr, DecidableEq

/-- Threshold `clickThresholdMs = 500` of `InputService`. -/
def clickThresholdMs : Int := 500

/-- Threshold `clickDistanceThreshold = 10` of `InputService`. -/
def clickDistanceThreshold : Int := 10

/-- Debounce `scrollDebounceMs = 150` of `InputService`. -/
def scrollDebounceMs : Int := 150

/-- Debounce `moveDebounceMs = 350` of `InputService`. -/
def moveDebounceMs : Int := 350

/-- Mirrors `createBaseAction`: stamps the action with the current wall clock
and the offset from the session start. -/
def createBaseAction (s : InputState) (now : Int) (type : ActionType)
    (coords : Coords) : Action :=
  { sessionId := s.sessionId
    type := type
    happenedAt := now
    relativeTimeMs := now - s.sessionStartTime
    coords := coords }

/-- Mirrors `emitAction`: the action reaches the consumer only while the
callback is installed. -/
def emitAction (s : InputState) (a : Action) : List Action :=
  if s.hasCallback then [a] else []

/-- Mirrors `handleMouseDown(button, event)`: click counting shared by all
three buttons.  The source compares `Math.sqrt(dx^2 + dy^2) <
clickDistanceThreshold`; over `Int` this is encoded as the equivalent
`dx^2 + dy^2 < clickDistanceThreshold^2`. -/
def handleMouseDown (s : InputState) (button : PointerButton) (now : Int)
    (coords : Coords) : InputState × List Action :=
  let timeSinceLastClick := now - s.lastClickTime
  let distanceSq := (coords.x - s.lastClickCoords.x) ^ 2 +
    (coords.y - s.lastClickCoords.y) ^ 2
  let newCount :=
    if timeSinceLastClick < clickThresholdMs ∧
        distanceSq < clickDistanceThreshold ^ 2 then
      s.clickCount + 1
    else
      1
  let s1 := { s with lastClickTime := now, lastClickCoords := coords,
                     clickCount := newCount }
  (s1, emitAction s1 { createBaseAction s1 now .click coords with
          pointerMeta := some { button := button, clickCount := newCount } })

/-- Mirrors `handleLeftMouseDown`: records the drag origin, then delegates to
the shared click-count logic. -/
def handleLeftMouseDown (s : InputState) (now : Int) (coords : Coords) :
    InputState × List Action :=
  let s1 := { s with isLeftButtonDown := true, isDragging := false,
                     dragStartCoords := coords, lastDragCoords := coords }
  handleMouseDown s1 .left now coords

/-- Mirrors `handleLeftMouseUp`: emits `drag_end` only when a drag is
active, then clears the button/drag flags. -/
def handleLeftMouseUp (s : InputState) (now : Int) (coords : Coords) :
    InputState × List Action :=
  let acts :=
    if s.isDragging then
      emitAction s { createBaseAction s now .drag_end coords with
        pointerMeta := some { button := .left, clickCount := s.clickCount } }
    else []
  ({ s with isLeftButtonDown := false, isDragging := false,
            lastDragCoords := coords }, acts)

/-- Mirrors `emitMoveEnd`: emits `mouseover_end` at the last observed move
coordinates if a hover session is open, and clears the hover timer. -/
def emitMoveEnd (s : InputState) (now : Int) : InputState × List Action :=
  if s.isMoving then
    ({ s with isMoving := false, moveTimeout := none },
      emitAction s (createBaseAction s now .mouseover_end s.lastMoveCoords))
  else
    ({ s with moveTimeout := none }, [])

/-- Mirrors `handleLeftMouseDragged`: ignored unless the left button is down;
on the first drag event of a span it force-closes any open hover session and
emits `drag_start` at the coordinates captured at button-down. -/
def handleLeftMouseDragged (s : InputState) (now : Int) (coords : Coords) :
    InputState × List Action :=
  if !s.isLeftButtonDown then (s, [])
  else
    let s1 := { s with lastDragCoords := coords }
    if s1.isDragging then (s1, [])
    else
      let s2 := { s1 with isDragging := true, moveTimeout := none }
      let hover := emitMoveEnd s2 now
      let s3 := hover.1
      (s3, hover.2 ++ emitAction s3
        { createBaseAction s3 now .drag_start s.dragStartCoords with
          pointerMeta := some { button := .left, clickCount := s3.clickCount } })

/-- Mirrors `handleRightMouseDown`. -/
def handleRightMouseDown (s : InputState) (now : Int) (coords : Coords) :
    InputState × List Action :=
  handleMouseDown s .right now coords

/-- Mirrors `handleOtherMouseDown`. -/
def handleOtherMouseDown (s : InputState) (now : Int) (coords : Coords) :
    InputState × List Action :=
  handleMouseDown s .other now coords

/-- Mirrors `handleKeyDown`: one `keypress` action at coordinates (0,0).
Key metadata (`keyMeta`) is elided from the `Action` model. -/
def handleKeyDown (s : InputState) (now : Int) : InputState × List Action :=
  (s, emitAction s (createBaseAction s now .keypress { x := 0, y := 0 }))

/-- Mirrors `emitScrollEnd`: emits `scroll_end` at the last observed scroll
coordinates if a scroll session is open, and clears the scroll timer. -/
def emitScrollEnd (s : InputState) (now : Int) : InputState × List Action :=
  if s.isScrolling then
    ({ s with isScrolling := false, scrollTimeout := none },
      emitAction s (createBaseAction s now .scroll_end s.lastScrollCoords))
  else
    ({ s with scrollTimeout := none }, [])

/-- Mirrors `handleMouseWheel`: the first wheel event of an idle period emits
`scroll_start`; every wheel event (re)arms the 150ms idle timer. -/
def handleMouseWheel (s : InputState) (now : Int) (coords : Coords) :
    InputState × List Action :=
  let s1 := { s with lastScrollCoords := coords }
  let fired :=
    if s1.isScrolling then (s1, ([] : List Action))
    else
      let s2 := { s1 with isScrolling := true }
      (s2, emitAction s2 (createBaseAction s2 now .scroll_start coords))
  ({ fired.1 with scrollTimeout := some (now + scrollDebounceMs) }, fired.2)

/-- Mirrors `handleMouseMoved`: hover tracking is suppressed while the left
button is down or a drag is active; otherwise the first move of an idle
period emits `mouseover_start` and every move (re)arms the 350ms timer. -/
def handleMouseMoved (s : InputState) (now : Int) (coords : Coords) :
    InputState × List Action :=
  if s.isLeftButtonDown || s.isDragging then (s, [])
  else
    let s1 := { s with lastMoveCoords := coords }
    let fired :=
      if s1.isMoving then (s1, ([] : List Action))
      else
        let s2 := { s1 with isMoving := true }
        (s2, emitAction s2 (createBaseAction s2 now .mouseover_start coords))
    ({ fired.1 with moveTimeout := some (now + moveDebounceMs) }, fired.2)

/-- Mirrors `stop()`: a no-op when not running; otherwise clears both timers,
force-closes open scroll and hover sessions, and tears down.  Note the source
emits no `drag_end` here: it only resets the drag flags. -/
def stop (s : InputState) (now : Int) : InputState × List Action :=
  if !s.isRunning then (s, [])
  else
    let s1 := { s with scrollTimeout := none }
    let scrollPart :=
      if s1.isScrolling then emitScrollEnd s1 now else (s1, [])
    let s2 := { scrollPart.1 with moveTimeout := none }
    let movePart :=
      if s2.isMoving then emitMoveEnd s2 now else (s2, [])
    ({ movePart.1 with
        isRunning := false
        hasCallback := false
        isLeftButtonDown := false
        isDragging := false },
      scrollPart.2 ++ movePart.2)

/-- Observable side effects of `start()` on the platform hook. -/
inductive StartEffect
  | checkPermissions
  | requestPermissions
  | registerHandlers
  | setMouseMoveThrottling
  | startMonitoring
  deriving Repr, DecidableEq

/-- Outcome of `start()`: an already-running service resolves immediately,
missing accessibility permission throws, otherwise capture starts. -/
inductive StartOutcome
  | resolvedAlreadyRunning
  | threwPermissionError
  | started
  deriving Repr, DecidableEq

/-- Mirrors `start(sessionId, sessionStartTime, callback)`.  The permission
state of the platform hook is passed in as `hasPermissions`; the returned
effect list records which hook operations were performed. -/
def start (s : InputState) (hasPermissions : Bool) (sessionId : String)
    (sessionStartTime : Int) : InputState × List StartEffect × StartOutcome :=
  if s.isRunning then (s, [], .resolvedAlreadyRunning)
  else if !hasPermissions then
    (s, [.checkPermissions, .requestPermissions], .threwPermissionError)
  else
    ({ s with
        sessionId := sessionId
        sessionStartTime := sessionStartTime
        hasCallback := true
        isRunning := true },
      [.checkPermissions, .registerHandlers, .setMouseMoveThrottling,
        .startMonitoring],
      .started)

/-- A raw platform event as delivered by the iohook.  Coordinates are the
values after the source's `event.x ?? 0` defaulting. -/
inductive RawEvent
  | leftMouseDown (coords : Coords)
  | leftMouseUp (coords : Coords)
  | leftMouseDragged (coords : Coords)
  | rightMouseDown (coords : Coords)
  | otherMouseDown (coords : Coords)
  | keyDown
  | scrollWheel (coords : Coords)
  | mouseMoved (coords : Coords)
  deriving Repr, DecidableEq

/-- Dispatch of a raw event to its registered handler. -/
def handleRawEvent (s : InputState) (now : Int) :
    RawEvent → InputState × List Action
  | .leftMouseDown c => handleLeftMouseDown s now c
  | .leftMouseUp c => handleLeftMouseUp s now c
  | .leftMouseDragged c => handleLeftMouseDragged s now c
  | .rightMouseDown c => handleRightMouseDown s now c
  | .otherMouseDown c => handleOtherMouseDown s now c
  | .keyDown => handleKeyDown s now
  | .scrollWheel c => handleMouseWheel s now c
  | .mouseMoved c => handleMouseMoved s now c

/-- A stored timer deadline that is due at time `t`. -/
def dueTimer (t : Int) : Option Int → Option Int
  | some d => if d ≤ t then some d else none
  | none => none

/-- Event-loop timer delivery: fires every pending `setTimeout` whose deadline
has passed by time `t`, earliest deadline first.  The scroll timer callback is
`emitScrollEnd`, the hover timer callback is `emitMoveEnd`; neither schedules
a new timer. -/
def advanceTimers (s : InputState) (t : Int) : InputState × List Action :=
  match dueTimer t s.scrollTimeout, dueTimer t s.moveTimeout with
  | none, none => (s, [])
  | some d, none => emitScrollEnd s d
  | none, some d => emitMoveEnd s d
  | some ds, some dm =>
    if ds ≤ dm then
      let p1 := emitScrollEnd s ds
      let p2 := emitMoveEnd p1.1 dm
      (p2.1, p1.2 ++ p2.2)
    else
      let p1 := emitMoveEnd s dm
      let p2 := emitScrollEnd p1.1 ds
      (p2.1, p1.2 ++ p2.2)

/-- Fires all still-pending timers at their own deadlines (the event loop
after the last raw event, with no further input). -/
def drainTimers (s : InputState) : InputState × List Action :=
  match s.scrollTimeout, s.moveTimeout with
  | none, none => (s, [])
  | some d, none => emitScrollEnd s d
  | none, some d => emitMoveEnd s d
  | some ds, some dm =>
    if ds ≤ dm then
      let p1 := emitScrollEnd s ds
      let p2 := emitMoveEnd p1.1 dm
      (p2.1, p1.2 ++ p2.2)
    else
      let p1 := emitMoveEnd s dm
      let p2 := emitScrollEnd p1.1 ds
      (p2.1, p1.2 ++ p2.2)

/-- One event-loop step: deliver due timer callbacks, then the raw event. -/
def stepEvent (s : InputState) (te : Int × RawEvent) :
    InputState × List Action :=
  let timers := advanceTimers s te.1
  let handled := handleRawEvent timers.1 te.1 te.2
  (handled.1, timers.2 ++ handled.2)

/-- Runs a timestamped raw-event trace through the service. -/
def runFrom (s : InputState) : List (Int × RawEvent) → InputState × List Action
  | [] => (s, [])
  | te :: rest =>
    let first := stepEvent s te
    let tail := runFrom first.1 rest
    (tail.1, first.2 ++ tail.2)

/-- Service state right after a successful `start("session-1", 0, cb)`. -/
def initialState : InputState :=
  { sessionId := "session-1", sessionStartTime := 0, hasCallback := true,
    isRunning := true }

/-- Runs a trace from `initialState`, then lets the remaining debounce timers
fire (trailing silence). -/
def runAndDrain (trace : List (Int × RawEvent)) : InputState × List Action :=
  let r := runFrom initialState trace
  let d := drainTimers r.1
  (d.1, r.2 ++ d.2)

/-! Capture policy of the `App` capture effect (part_005 lines 88-152 /
part_006 lines 86-150): which screenshot phases a consumed action gets. -/

/-- Screenshot phase, as passed to `captureAndPersist`. -/
inductive Phase
  | before
  | during
  | after
  deriving Repr, DecidableEq

/-- The fixed settle delay before the "after" capture of a discrete action
(the `setTimeout(resolve, 120)` wait in the capture job). -/
def settleDelayMs : Int := 120

/-- Mirrors `shouldCaptureSingle` of the capture effect: boundary actions get
a single "during" capture. -/
def shouldCaptureSingle (t : ActionType) : Bool :=
  t == ActionType.mouseover_start ||
  t == ActionType.mouseover_end ||
  t == ActionType.drag_start ||
  t == ActionType.drag_end ||
  t == ActionType.scroll_start ||
  t == ActionType.scroll_end

/-- Mirrors `shouldCaptureBeforeAfter` of the capture effect. -/
def shouldCaptureBeforeAfter (t : ActionType) : Bool :=
  t == ActionType.click || t == ActionType.keypress

/-- The capture requests issued by the queued capture job for one consumed
action: each entry is a phase together with the `relativeTimeMs` recorded for
the persisted screenshot.  Mirrors the body of the enqueued job: one "during"
capture for boundary actions; for discrete actions a "before" capture at the
action's own relative time, then a 120ms settle wait, then an "after" capture
stamped `relativeTimeMs + 120`. -/
def captureJobRequests (a : Action) : List (Phase × Int) :=
  if shouldCaptureSingle a.type then
    [(Phase.during, a.relativeTimeMs)]
  else if shouldCaptureBeforeAfter a.type then
    [(Phase.before, a.relativeTimeMs),
     (Phase.after, a.relativeTimeMs + settleDelayMs)]
  else []

/-! Machinery for trace-level claims: start/end alternation of the emitted
gesture boundaries, and well-formedness of the raw left-button signal. -/

/-- Whether an action type is a scroll gesture boundary. -/
def isScrollBoundary : ActionType → Bool
  | .scroll_start => true
  | .scroll_end => true
  | _ => false

/-- Whether an action type is a hover gesture boundary. -/
def isMoveBoundary : ActionType → Bool
  | .mouseover_start => true
  | .mouseover_end => true
  | _ => false

/-- Whether an action type is a drag gesture boundary. -/
def isDragBoundary : ActionType → Bool
  | .drag_start => true
  | .drag_end => true
  | _ => false

/-- The scroll boundary types emitted, in emission order. -/
def scrollSeq (acts : List Action) : List ActionType :=
  (acts.filter (fun a => isScrollBoundary a.type)).map Action.type

/-- The hover boundary types emitted, in emission order. -/
def moveSeq (acts : List Action) : List ActionType :=
  (acts.filter (fun a => isMoveBoundary a.type)).map Action.type

/-- The drag boundary types emitted, in emission order. -/
def dragSeq (acts : List Action) : List ActionType :=
  (acts.filter (fun a => isDragBoundary a.type)).map Action.type

/-- Checks that a boundary subsequence strictly alternates `startT`, `endT`,
`startT`, ...  The `Bool` argument is whether a session is currently open;
the result is the open/closed status after the list, or `none` if the list
violates alternation (an `_end` without an open session, or a nested
`_start`).  `altFrom startT endT false l = some false` says every `_start`
in `l` has its matching `_end` after it. -/
def altFrom (startT endT : ActionType) : Bool → List ActionType → Option Bool
  | b, [] => some b
  | false, t :: ts => if t = startT then altFrom startT endT true ts else none
  | true, t :: ts => if t = endT then altFrom startT endT false ts else none

/-- The left-button press/release signal of a raw event (`true` = down). -/
def leftButtonSignal : RawEvent → Option Bool
  | .leftMouseDown _ => some true
  | .leftMouseUp _ => some false
  | _ => none

/-- The left-button press/release signals of a trace, in order. -/
def leftSignals (trace : List (Int × RawEvent)) : List Bool :=
  trace.filterMap (fun te => leftButtonSignal te.2)

/-- Physical well-formedness of the left-button signal: starting from the
given pressed/released state, downs and ups strictly alternate (a real button
cannot go down twice without being released in between). -/
def altDownUp : Bool → List Bool → Bool
  | _, [] => true
  | false, b :: bs => b && altDownUp true bs
  | true, b :: bs => !b && altDownUp false bs

/-! Concrete scenario traces used by the claims. -/

/-- A left-button down followed 100ms later by a right-button down at the
same position. -/
def crossButtonTrace : List (Int × RawEvent) :=
  [(0, .leftMouseDown { x := 100, y := 100 }),
   (100, .rightMouseDown { x := 100, y := 100 })]

/-- Three left-button downs at (100,100) spaced 200ms apart, then a fourth
down at (500,500) ten seconds after the third. -/
def multiClickTrace : List (Int × RawEvent) :=
  [(0, .leftMouseDown { x := 100, y := 100 }),
   (200, .leftMouseDown { x := 100, y := 100 }),
   (400, .leftMouseDown { x := 100, y := 100 }),
   (10400, .leftMouseDown { x := 500, y := 500 })]

/-- Wheel events at t = 0, 50 and 100 ms, followed by silence. -/
def scrollBurstTrace : List (Int × RawEvent) :=
  [(0, .scrollWheel { x := 10, y := 20 }),
   (50, .scrollWheel { x := 30, y := 40 }),
   (100, .scrollWheel { x := 50, y := 60 })]

/-- A left-button down followed by a drag event, with the button still held:
the state a mid-drag `stop()` is applied to. -/
def midDragTrace : List (Int × RawEvent) :=
  [(0, .leftMouseDown { x := 5, y := 5 }),
   (10, .leftMouseDragged { x := 40, y := 40 })]

end Recorder

namespace CaptureQueue

/-- One queued screenshot capture job: when its triggering action was emitted
(the moment `enqueue` appends it to the promise chain) and how long the whole
job runs, capture plus persistence write included.  Durations are arbitrary:
a later job may well be faster than an earlier one. -/
structure CaptureJob where
  emitTime : Nat
  duration : Nat
  deriving Repr, DecidableEq

/-- The schedule produced by the promise chain of `enqueue` (part_005 lines
80-86 / part_006 lines 78-84): `captureQueueRef.current =
captureQueueRef.current.then(job)`.  A job starts only when the previous
chain tail has settled (or at its own enqueue time if the chain is already
settled), and settles `duration` later; `prevSettle` is the settle time of
the current chain tail.  Returns the (start, finish) times of each job in
enqueue order. -/
def chainSchedule (prevSettle : Nat) : List CaptureJob → List (Nat × Nat)
  | [] => []
  | j :: js =>
    let s := max j.emitTime prevSettle
    (s, s + j.duration) :: chainSchedule (s + j.duration) js

end CaptureQueue

namespace Upload

/-- Modelled from the spec: upload status enum of `UploadState`
(src/main/uploadQueue.ts and uploadStateStore.ts are not among the sources;
only the plan document history/upload-system-plan.md describes them). -/
inductive UploadStatus
  | not_uploaded
  | pending
  | uploading
  | done
  | failed
  deriving Repr, DecidableEq

/-- Modelled from the spec: the per-session upload state fields that the
retry/backoff behaviour depends on. -/
structure UploadState where
  status : UploadStatus
  retryCount : Nat
  maxRetries : Nat
  deriving Repr, DecidableEq

/-- Modelled from the spec: `maxRetries` defaults to 10. -/
def defaultMaxRetries : Nat := 10

/-- Modelled from the spec: backoff delay before a failed upload re-enters
`pending`, `min(1000 * 2^retryCount, 300000)` milliseconds. -/
def backoffDelayMs (retryCount : Nat) : Nat :=
  min (1000 * 2 ^ retryCount) 300000

/-- Modelled from the spec: the events driving the upload state machine. -/
inductive UploadEvent
  | enqueue
  | workerPick
  | success
  | failure
  | userRetry
  | cancel
  deriving Repr, DecidableEq

/-- Modelled from the spec: the upload state machine.  On a retryable
failure the retry count increments; the failure that brings `retryCount` to
`maxRetries` marks the session `failed` (poison-pill), earlier failures
re-enter `pending` after `backoffDelayMs` of the pre-failure count (attempt
`n` waits `min(1000*2^n, 300000)`).  Only an explicit user retry leaves
`failed`, resetting the count.  The second component is the backoff delay
scheduled by the transition, if any. -/
def uploadStep (s : UploadState) (e : UploadEvent) :
    UploadState × Option Nat :=
  match s.status, e with
  | .not_uploaded, .enqueue => ({ s with status := .pending }, none)
  | .pending, .workerPick => ({ s with status := .uploading }, none)
  | .uploading, .success => ({ s with status := .done }, none)
  | .uploading, .failure =>
    if s.retryCount + 1 < s.maxRetries then
      ({ s with status := .pending, retryCount := s.retryCount + 1 },
        some (backoffDelayMs s.retryCount))
    else
      ({ s with status := .failed, retryCount := s.retryCount + 1 }, none)
  | .uploading, .cancel => ({ s with status := .not_uploaded }, none)
  | .failed, .userRetry => ({ s with status := .pending, retryCount := 0 },
      none)
  | _, _ => (s, none)

/-- Runs a sequence of upload events, collecting every scheduled backoff
delay in order. -/
def runUpload (s : UploadState) : List UploadEvent → UploadState × List Nat
  | [] => (s, [])
  | e :: es =>
    let p := uploadStep s e
    let rest := runUpload p.1 es
    (rest.1, (match p.2 with | some d => [d] | none => []) ++ rest.2)

/-- Modelled from the spec: a freshly tracked session before any upload. -/
def freshState : UploadState :=
  { status := .not_uploaded, retryCount := 0, maxRetries := defaultMaxRetries }

/-- A worker pick-up followed by a retryable failure, `n` times over. -/
def failCycles : Nat → List UploadEvent
  | 0 => []
  | n + 1 => .workerPick :: .failure :: failCycles n

end Upload

/-! Theorems. -/

namespace Recorder

/-- Claim C10: calling `start` on an `InputService` that is already running
is a no-op — it resolves without throwing, performs no permission check and
registers no handlers (the effect list is empty), and leaves the whole state,
`sessionId`, `sessionStartTime`, callback and all debounce/click/drag fields
included, unchanged. -/
theorem start_noop_when_running (s : InputState) (hasPermissions : Bool)
    (sessionId : String) (sessionStartTime : Int) (h : s.isRunning = true) :
    start s hasPermissions sessionId sessionStartTime =
      (s, [], StartOutcome.resolvedAlreadyRunning) := by
  simp [start, h]

/-- Witness for `start_noop_when_running` at a concrete running state. -/
theorem start_noop_when_running_witness :
    initialState.isRunning = true ∧
    start initialState false "other-session" 99 =
      (initialState, [], StartOutcome.resolvedAlreadyRunning) :=
  ⟨rfl, start_noop_when_running initialState false "other-session" 99 rfl⟩

/-- Claim C1, counterexample: the state machine keeps a single
`lastClickTime`/`lastClickCoords` pair shared by all buttons, so a
right-button down 100ms after a left-button down at the same position is
counted as `clickCount = 2`, where the claim demands a reset to 1 for a
different logical button. -/
theorem click_count_cross_button_cex :
    ((runFrom initialState crossButtonTrace).2.map
        (fun a => (a.type, a.pointerMeta))) =
      [(ActionType.click, some { button := .left, clickCount := 1 }),
       (ActionType.click, some { button := .right, clickCount := 2 })] ∧
    (2 : Nat) ≠ 1 := by
  exact ⟨by decide, by decide⟩

/-- Claim C1, amended: on every button-down, if the time since the previous
button-down on ANY logical button is below 500ms and the squared Euclidean
distance from the previous click coordinates is below 10², the emitted
click's `clickCount` is the previous count plus one, else 1; the rule is
independent of the logical button, which the state does not track. -/
theorem click_count_ignores_button (s : InputState) (b : PointerButton)
    (now : Int) (c : Coords) (hcb : s.hasCallback = true) :
    (handleMouseDown s b now c).1.clickCount =
      (if now - s.lastClickTime < clickThresholdMs ∧
          (c.x - s.lastClickCoords.x) ^ 2 + (c.y - s.lastClickCoords.y) ^ 2 <
            clickDistanceThreshold ^ 2 then
        s.clickCount + 1
      else 1) ∧
    (handleMouseDown s b now c).2 =
      [{ sessionId := s.sessionId
         type := .click
         happenedAt := now
         relativeTimeMs := now - s.sessionStartTime
         coords := c
         pointerMeta := some { button := b
                               clickCount :=
                                 (handleMouseDown s b now c).1.clickCount } }] ∧
    (∀ b2 : PointerButton,
      (handleMouseDown s b now c).1.clickCount =
        (handleMouseDown s b2 now c).1.clickCount) := by
  refine ⟨?_, ?_, ?_⟩
  · simp [handleMouseDown]
  · simp [handleMouseDown, emitAction, createBaseAction, hcb]
  · intro b2
    simp [handleMouseDown]

/-- Witness for `click_count_ignores_button` at a concrete state. -/
theorem click_count_ignores_button_witness :
    initialState.hasCallback = true ∧
    (handleMouseDown initialState .right 100 { x := 3, y := 4 }).1.clickCount =
      (if (100 : Int) - initialState.lastClickTime < clickThresholdMs ∧
          ((3 : Int) - initialState.lastClickCoords.x) ^ 2 +
            ((4 : Int) - initialState.lastClickCoords.y) ^ 2 <
            clickDistanceThreshold ^ 2 then
        initialState.clickCount + 1
      else 1) :=
  ⟨rfl, (click_count_ignores_button initialState .right 100 { x := 3, y := 4 }
    rfl).1⟩

/-- Claim C9: three button-downs at (100,100) spaced 200ms apart yield click
actions counted 1, 2, 3 — exactly one click action carries `clickCount = 3` —
and a fourth button-down at (500,500) ten seconds later yields a new click
action with `clickCount = 1`. -/
theorem triple_click_then_far_click :
    ((runFrom initialState multiClickTrace).2.map
        (fun a => (a.type, a.pointerMeta))) =
      [(ActionType.click, some { button := .left, clickCount := 1 }),
       (ActionType.click, some { button := .left, clickCount := 2 }),
       (ActionType.click, some { button := .left, clickCount := 3 }),
       (ActionType.click, some { button := .left, clickCount := 1 })] ∧
    ((runFrom initialState multiClickTrace).2.filter
        (fun a => a.pointerMeta ==
          some { button := .left, clickCount := 3 })).length = 1 ∧
    (runFrom initialState multiClickTrace).2.getLast? =
      some { sessionId := "session-1"
             type := .click
             happenedAt := 10400
             relativeTimeMs := 10400
             coords := { x := 500, y := 500 }
             pointerMeta := some { button := .left, clickCount := 1 } } := by
  refine ⟨by decide, by decide, by decide⟩

/-- Claim C3: for every consumed action, boundary actions (`mouseover_start`,
`mouseover_end`, `drag_start`, `drag_end`, `scroll_start`, `scroll_end`) get
exactly one capture, in phase "during" at the action's own relative time, and
discrete actions (`click`, `keypress`) get exactly two — "before" at the
action's relative time and "after" stamped `relativeTimeMs + 120` once the
fixed 120ms settle delay has elapsed. -/
theorem capture_policy (a : Action) :
    ((a.type = .mouseover_start ∨ a.type = .mouseover_end ∨
      a.type = .drag_start ∨ a.type = .drag_end ∨
      a.type = .scroll_start ∨ a.type = .scroll_end) →
      captureJobRequests a = [(Phase.during, a.relativeTimeMs)]) ∧
    ((a.type = .click ∨ a.type = .keypress) →
      captureJobRequests a =
        [(Phase.before, a.relativeTimeMs),
         (Phase.after, a.relativeTimeMs + settleDelayMs)] ∧
      settleDelayMs = 120) := by
  constructor
  · intro h
    rcases h with h | h | h | h | h | h <;>
      simp [captureJobRequests, shouldCaptureSingle, shouldCaptureBeforeAfter, h]
  · intro h
    rcases h with h | h <;>
      simp [captureJobRequests, shouldCaptureSingle, shouldCaptureBeforeAfter,
        h, settleDelayMs]

/-- Witness for `capture_policy` on a concrete `drag_start` action and a
concrete `click` action. -/
theorem capture_policy_witness :
    captureJobRequests { sessionId := "s"
                         type := .drag_start
                         happenedAt := 40
                         relativeTimeMs := 40
                         coords := { x := 1, y := 2 } } =
      [(Phase.during, 40)] ∧
    captureJobRequests { sessionId := "s"
                         type := .click
                         happenedAt := 70
                         relativeTimeMs := 70
                         coords := { x := 1, y := 2 } } =
      [(Phase.before, 70), (Phase.after, 70 + settleDelayMs)] :=
  ⟨(capture_policy _).1 (by simp),
   ((capture_policy _).2 (by simp)).1⟩

end Recorder

namespace CaptureQueue

/-- The promise chain preserves the job count. -/
theorem chainSchedule_length (prevSettle : Nat) (jobs : List CaptureJob) :
    (chainSchedule prevSettle jobs).length = jobs.length := by
  induction jobs generalizing prevSettle with
  | nil => rfl
  | cons j js ih => simp [chainSchedule, ih]

/-- The first job of a chain starts no earlier than the settle time of the
chain it was appended to. -/
theorem chainSchedule_head_start_ge (prevSettle : Nat) (j : CaptureJob)
    (js : List CaptureJob) :
    prevSettle ≤ ((chainSchedule prevSettle (j :: js)).getD 0 (0, 0)).1 := by
  simp [chainSchedule]

/-- Claim C2: capture jobs run strictly in the order their triggering
actions were emitted — job `i+1` does not start until job `i` has fully
settled (its persistence write included, since the chained promise covers
the whole job body), each job finishes no earlier than it starts, and start
times are monotone in emission order, regardless of the jobs' durations. -/
theorem capture_jobs_serialized (jobs : List CaptureJob) (prevSettle : Nat)
    (i : Nat) (h : i + 1 < jobs.length) :
    ((chainSchedule prevSettle jobs).getD i (0, 0)).2 ≤
      ((chainSchedule prevSettle jobs).getD (i + 1) (0, 0)).1 ∧
    ((chainSchedule prevSettle jobs).getD i (0, 0)).1 ≤
      ((chainSchedule prevSettle jobs).getD i (0, 0)).2 ∧
    ((chainSchedule prevSettle jobs).getD i (0, 0)).1 ≤
      ((chainSchedule prevSettle jobs).getD (i + 1) (0, 0)).1 := by
  induction jobs generalizing prevSettle i with
  | nil => simp at h
  | cons j js ih =>
    cases i with
    | zero =>
      cases js with
      | nil => simp at h
      | cons j2 js2 =>
        refine ⟨?_, ?_, ?_⟩
        · simp only [chainSchedule, List.getD_cons_zero, List.getD_cons_succ]
          exact chainSchedule_head_start_ge
            (max j.emitTime prevSettle + j.duration) j2 js2
        · simp [chainSchedule]
        · have h1 := chainSchedule_head_start_ge
            (max j.emitTime prevSettle + j.duration) j2 js2
          simp only [chainSchedule, List.getD_cons_zero, List.getD_cons_succ]
          omega
    | succ k =>
      have h2 : k + 1 < js.length := by simpa using h
      simpa [chainSchedule, List.getD_cons_succ] using ih _ k h2

/-- Witness for `capture_jobs_serialized`: the second job is emitted almost
immediately and is 20 times faster, yet starts only at the first job's
settle time. -/
theorem capture_jobs_serialized_witness :
    (((chainSchedule 0 [⟨0, 100⟩, ⟨1, 5⟩]).getD 0 (0, 0)).2 ≤
      ((chainSchedule 0 [⟨0, 100⟩, ⟨1, 5⟩]).getD 1 (0, 0)).1) ∧
    (0 + 1 < ([⟨0, 100⟩, ⟨1, 5⟩] : List CaptureJob).length) :=
  ⟨(capture_jobs_serialized [⟨0, 100⟩, ⟨1, 5⟩] 0 0 (by decide)).1, by decide⟩

end CaptureQueue

namespace Upload

/-- Claim C8 (the upload queue implementation is not among the sources, so
this is settled against the spec-modelled state machine): backoff for retry
attempt `n` is exactly `min(1000·2ⁿ, 300000)` ms; a session created with the
default `maxRetries = 10` that fails ten times sees the delays 1s, 2s, 4s,
…, 256s for the first nine failures, is marked `failed` with
`retryCount = 10` by the tenth, and from `failed` no event except an
explicit user retry changes the state (no automatic retry). -/
theorem upload_backoff_and_poison_pill :
    (∀ n : Nat, backoffDelayMs n = min (1000 * 2 ^ n) 300000) ∧
    (runUpload freshState (UploadEvent.enqueue :: failCycles 10)).1.status =
      UploadStatus.failed ∧
    (runUpload freshState (UploadEvent.enqueue :: failCycles 10)).1.retryCount
      = 10 ∧
    (runUpload freshState (UploadEvent.enqueue :: failCycles 10)).2 =
      [1000, 2000, 4000, 8000, 16000, 32000, 64000, 128000, 256000] ∧
    (∀ e : UploadEvent, e ≠ .userRetry →
      uploadStep (runUpload freshState (UploadEvent.enqueue :: failCycles 10)).1
          e =
        ((runUpload freshState (UploadEvent.enqueue :: failCycles 10)).1,
          none)) := by
  refine ⟨fun n => rfl, by decide, by decide, by decide, ?_⟩
  intro e he
  cases e
  · rfl
  · rfl
  · rfl
  · rfl
  · exact absurd rfl he
  · rfl

/-- Witness for `upload_backoff_and_poison_pill`: the sixth attempt waits
32 seconds, and a further failure event on the poisoned session changes
nothing. -/
theorem upload_backoff_witness :
    backoffDelayMs 5 = min (1000 * 2 ^ 5) 300000 ∧
    uploadStep (runUpload freshState (UploadEvent.enqueue :: failCycles 10)).1
        .failure =
      ((runUpload freshState (UploadEvent.enqueue :: failCycles 10)).1,
        none) :=
  ⟨upload_backoff_and_poison_pill.1 5,
   upload_backoff_and_poison_pill.2.2.2.2 .failure (by decide)⟩

end Upload

namespace Recorder

/-- Claim C6: the first wheel event of an idle period emits `scroll_start`
immediately and every wheel event re-arms the 150ms idle timer; the timer
firing emits exactly one `scroll_end` at the last observed coordinates; and
on the concrete burst t = 0, 50, 100ms followed by silence, exactly one
`scroll_start` (relative time 0) and one `scroll_end` (relative time 250, at
the last coordinates) are emitted. -/
theorem scroll_debounce :
    (∀ (s : InputState) (now : Int) (c : Coords), s.hasCallback = true →
      (handleMouseWheel s now c).2.map Action.type =
        (if s.isScrolling then [] else [ActionType.scroll_start]) ∧
      (handleMouseWheel s now c).1.scrollTimeout =
        some (now + scrollDebounceMs) ∧
      (handleMouseWheel s now c).1.isScrolling = true ∧
      (handleMouseWheel s now c).1.lastScrollCoords = c) ∧
    (∀ (s : InputState) (now : Int), s.hasCallback = true →
      s.isScrolling = true →
      (emitScrollEnd s now).2.map (fun a => (a.type, a.coords)) =
        [(ActionType.scroll_end, s.lastScrollCoords)] ∧
      (emitScrollEnd s now).1.isScrolling = false ∧
      (emitScrollEnd s now).1.scrollTimeout = none) ∧
    (runAndDrain scrollBurstTrace).2.map
        (fun a => (a.type, a.relativeTimeMs, a.coords)) =
      [(ActionType.scroll_start, 0, { x := 10, y := 20 }),
       (ActionType.scroll_end, 250, { x := 50, y := 60 })] := by
  refine ⟨?_, ?_, by decide⟩
  · intro s now c hcb
    by_cases hs : s.isScrolling <;>
      simp [handleMouseWheel, emitAction, createBaseAction, hcb, hs]
  · intro s now hcb hs
    simp [emitScrollEnd, emitAction, createBaseAction, hcb, hs]

/-- Witness for `scroll_debounce` at concrete scrolling states. -/
theorem scroll_debounce_witness :
    (handleMouseWheel initialState 7 { x := 1, y := 2 }).2.map Action.type =
      (if initialState.isScrolling then [] else [ActionType.scroll_start]) ∧
    (emitScrollEnd { initialState with
        isScrolling := true
        lastScrollCoords := { x := 5, y := 6 } } 40).2.map
      (fun a => (a.type, a.coords)) =
      [(ActionType.scroll_end, { x := 5, y := 6 })] :=
  ⟨(scroll_debounce.1 initialState 7 { x := 1, y := 2 } rfl).1,
   (scroll_debounce.2.1 { initialState with
      isScrolling := true
      lastScrollCoords := { x := 5, y := 6 } } 40 rfl rfl).1⟩

/-- Claim C5: mouse-move events emit no hover boundary while the left button
is down or a drag is active (the handler is a strict no-op), and the first
drag event of a span force-closes an open hover session by emitting exactly
one `mouseover_end` immediately before the `drag_start` (and none when no
hover was open), leaving no pending hover timer during the drag. -/
theorem hover_drag_exclusion :
    (∀ (s : InputState) (now : Int) (c : Coords),
      (s.isLeftButtonDown || s.isDragging) = true →
      handleMouseMoved s now c = (s, [])) ∧
    (∀ (s : InputState) (now : Int) (c : Coords),
      s.isLeftButtonDown = true → s.isDragging = false →
      s.isMoving = true → s.hasCallback = true →
      (handleLeftMouseDragged s now c).2.map Action.type =
        [ActionType.mouseover_end, ActionType.drag_start] ∧
      (handleLeftMouseDragged s now c).1.isMoving = false ∧
      (handleLeftMouseDragged s now c).1.moveTimeout = none) ∧
    (∀ (s : InputState) (now : Int) (c : Coords),
      s.isLeftButtonDown = true → s.isDragging = false →
      s.isMoving = false → s.hasCallback = true →
      (handleLeftMouseDragged s now c).2.map Action.type =
        [ActionType.drag_start] ∧
      (handleLeftMouseDragged s now c).1.isMoving = false ∧
      (handleLeftMouseDragged s now c).1.moveTimeout = none) := by
  refine ⟨?_, ?_, ?_⟩
  · intro s now c h
    simp [handleMouseMoved, h]
  · intro s now c hb hd hm hcb
    simp [handleLeftMouseDragged, emitMoveEnd, emitAction, createBaseAction,
      hb, hd, hm, hcb]
  · intro s now c hb hd hm hcb
    simp [handleLeftMouseDragged, emitMoveEnd, emitAction, createBaseAction,
      hb, hd, hm, hcb]

/-- Witness for `hover_drag_exclusion`: a move during a drag is dropped, and
a drag beginning under an open hover emits `mouseover_end` then
`drag_start`. -/
theorem hover_drag_exclusion_witness :
    handleMouseMoved { initialState with
        isLeftButtonDown := true
        isDragging := true } 9 { x := 1, y := 1 } =
      ({ initialState with isLeftButtonDown := true, isDragging := true },
        []) ∧
    (handleLeftMouseDragged { initialState with
        isLeftButtonDown := true
        isMoving := true } 9 { x := 1, y := 1 }).2.map Action.type =
      [ActionType.mouseover_end, ActionType.drag_start] :=
  ⟨hover_drag_exclusion.1 { initialState with
      isLeftButtonDown := true
      isDragging := true } 9 { x := 1, y := 1 } rfl,
   (hover_drag_exclusion.2.1 { initialState with
      isLeftButtonDown := true
      isMoving := true } 9 { x := 1, y := 1 } rfl rfl rfl rfl).1⟩

end Recorder

namespace Recorder

/-- Alternation checking composes over list concatenation. -/
theorem altFrom_append (startT endT : ActionType) (b : Bool)
    (xs ys : List ActionType) :
    altFrom startT endT b (xs ++ ys) =
      (altFrom startT endT b xs).bind
        (fun b2 => altFrom startT endT b2 ys) := by
  induction xs generalizing b with
  | nil => simp [altFrom]
  | cons t ts ih =>
    cases b <;> simp only [List.cons_append, altFrom] <;> split <;>
      simp [ih]

/-- Scroll boundary extraction distributes over concatenation. -/
theorem scrollSeq_append (xs ys : List Action) :
    scrollSeq (xs ++ ys) = scrollSeq xs ++ scrollSeq ys := by
  simp [scrollSeq]

/-- Hover boundary extraction distributes over concatenation. -/
theorem moveSeq_append (xs ys : List Action) :
    moveSeq (xs ++ ys) = moveSeq xs ++ moveSeq ys := by
  simp [moveSeq]

/-- Drag boundary extraction distributes over concatenation. -/
theorem dragSeq_append (xs ys : List Action) :
    dragSeq (xs ++ ys) = dragSeq xs ++ dragSeq ys := by
  simp [dragSeq]

/-- The scroll/hover alternation invariant composes over two successive
emission batches. -/
theorem scrollMoveInv_comp {s s1 s2 : InputState} {a1 a2 : List Action}
    (h1 : s1.hasCallback = true ∧ s1.isRunning = s.isRunning ∧
      altFrom .scroll_start .scroll_end s.isScrolling (scrollSeq a1) =
        some s1.isScrolling ∧
      altFrom .mouseover_start .mouseover_end s.isMoving (moveSeq a1) =
        some s1.isMoving)
    (h2 : s2.hasCallback = true ∧ s2.isRunning = s1.isRunning ∧
      altFrom .scroll_start .scroll_end s1.isScrolling (scrollSeq a2) =
        some s2.isScrolling ∧
      altFrom .mouseover_start .mouseover_end s1.isMoving (moveSeq a2) =
        some s2.isMoving) :
    s2.hasCallback = true ∧ s2.isRunning = s.isRunning ∧
    altFrom .scroll_start .scroll_end s.isScrolling (scrollSeq (a1 ++ a2)) =
      some s2.isScrolling ∧
    altFrom .mouseover_start .mouseover_end s.isMoving (moveSeq (a1 ++ a2)) =
      some s2.isMoving := by
  obtain ⟨hc1, hr1, hs1, hm1⟩ := h1
  obtain ⟨hc2, hr2, hs2, hm2⟩ := h2
  refine ⟨hc2, hr2.trans hr1, ?_, ?_⟩
  · rw [scrollSeq_append, altFrom_append, hs1, Option.some_bind, hs2]
  · rw [moveSeq_append, altFrom_append, hm1, Option.some_bind, hm2]

/-- Scroll/hover invariant through the scroll timer callback. -/
theorem scrollMoveInv_emitScrollEnd (s : InputState) (d : Int)
    (hcb : s.hasCallback = true) :
    (emitScrollEnd s d).1.hasCallback = true ∧
    (emitScrollEnd s d).1.isRunning = s.isRunning ∧
    altFrom .scroll_start .scroll_end s.isScrolling
        (scrollSeq (emitScrollEnd s d).2) =
      some (emitScrollEnd s d).1.isScrolling ∧
    altFrom .mouseover_start .mouseover_end s.isMoving
        (moveSeq (emitScrollEnd s d).2) =
      some (emitScrollEnd s d).1.isMoving := by
  by_cases hs : s.isScrolling <;>
    simp [emitScrollEnd, emitAction, createBaseAction, scrollSeq, moveSeq,
      isScrollBoundary, isMoveBoundary, altFrom, hcb, hs]

/-- Scroll/hover invariant through the hover timer callback. -/
theorem scrollMoveInv_emitMoveEnd (s : InputState) (d : Int)
    (hcb : s.hasCallback = true) :
    (emitMoveEnd s d).1.hasCallback = true ∧
    (emitMoveEnd s d).1.isRunning = s.isRunning ∧
    altFrom .scroll_start .scroll_end s.isScrolling
        (scrollSeq (emitMoveEnd s d).2) =
      some (emitMoveEnd s d).1.isScrolling ∧
    altFrom .mouseover_start .mouseover_end s.isMoving
        (moveSeq (emitMoveEnd s d).2) =
      some (emitMoveEnd s d).1.isMoving := by
  by_cases hm : s.isMoving <;>
    simp [emitMoveEnd, emitAction, createBaseAction, scrollSeq, moveSeq,
      isScrollBoundary, isMoveBoundary, altFrom, hcb, hm]

/-- Scroll/hover invariant through timer delivery. -/
theorem scrollMoveInv_advanceTimers (s : InputState) (t : Int)
    (hcb : s.hasCallback = true) :
    (advanceTimers s t).1.hasCallback = true ∧
    (advanceTimers s t).1.isRunning = s.isRunning ∧
    altFrom .scroll_start .scroll_end s.isScrolling
        (scrollSeq (advanceTimers s t).2) =
      some (advanceTimers s t).1.isScrolling ∧
    altFrom .mouseover_start .mouseover_end s.isMoving
        (moveSeq (advanceTimers s t).2) =
      some (advanceTimers s t).1.isMoving := by
  unfold advanceTimers
  cases h1 : dueTimer t s.scrollTimeout <;>
    cases h2 : dueTimer t s.moveTimeout <;>
    simp only []
  · simp [scrollSeq, moveSeq, altFrom, hcb]
  · exact scrollMoveInv_emitMoveEnd s _ hcb
  · exact scrollMoveInv_emitScrollEnd s _ hcb
  · split
    · exact scrollMoveInv_comp (scrollMoveInv_emitScrollEnd s _ hcb)
        (scrollMoveInv_emitMoveEnd _ _
          (scrollMoveInv_emitScrollEnd s _ hcb).1)
    · exact scrollMoveInv_comp (scrollMoveInv_emitMoveEnd s _ hcb)
        (scrollMoveInv_emitScrollEnd _ _
          (scrollMoveInv_emitMoveEnd s _ hcb).1)

end Recorder

namespace Recorder

/-- Scroll/hover invariant through the dispatch of any raw event. -/
theorem scrollMoveInv_handleRawEvent (s : InputState) (now : Int)
    (e : RawEvent) (hcb : s.hasCallback = true) :
    (handleRawEvent s now e).1.hasCallback = true ∧
    (handleRawEvent s now e).1.isRunning = s.isRunning ∧
    altFrom .scroll_start .scroll_end s.isScrolling
        (scrollSeq (handleRawEvent s now e).2) =
      some (handleRawEvent s now e).1.isScrolling ∧
    altFrom .mouseover_start .mouseover_end s.isMoving
        (moveSeq (handleRawEvent s now e).2) =
      some (handleRawEvent s now e).1.isMoving := by
  cases e with
  | leftMouseDown c =>
    simp [handleRawEvent, handleLeftMouseDown, handleMouseDown, emitAction,
      createBaseAction, scrollSeq, moveSeq, isScrollBoundary, isMoveBoundary,
      altFrom, hcb]
  | leftMouseUp c =>
    cases hd : s.isDragging <;>
      simp [handleRawEvent, handleLeftMouseUp, emitAction, createBaseAction,
        scrollSeq, moveSeq, isScrollBoundary, isMoveBoundary, altFrom, hcb,
        hd]
  | leftMouseDragged c =>
    cases hb : s.isLeftButtonDown
    · simp [handleRawEvent, handleLeftMouseDragged, hb, scrollSeq, moveSeq,
        altFrom, hcb]
    · cases hd : s.isDragging
      · cases hm : s.isMoving <;>
          simp [handleRawEvent, handleLeftMouseDragged, emitMoveEnd,
            emitAction, createBaseAction, scrollSeq, moveSeq,
            isScrollBoundary, isMoveBoundary, altFrom, hcb, hb, hd, hm]
      · simp [handleRawEvent, handleLeftMouseDragged, hb, hd, scrollSeq,
          moveSeq, altFrom, hcb]
  | rightMouseDown c =>
    simp [handleRawEvent, handleRightMouseDown, handleMouseDown, emitAction,
      createBaseAction, scrollSeq, moveSeq, isScrollBoundary, isMoveBoundary,
      altFrom, hcb]
  | otherMouseDown c =>
    simp [handleRawEvent, handleOtherMouseDown, handleMouseDown, emitAction,
      createBaseAction, scrollSeq, moveSeq, isScrollBoundary, isMoveBoundary,
      altFrom, hcb]
  | keyDown =>
    simp [handleRawEvent, handleKeyDown, emitAction, createBaseAction,
      scrollSeq, moveSeq, isScrollBoundary, isMoveBoundary, altFrom, hcb]
  | scrollWheel c =>
    cases hs : s.isScrolling <;>
      simp [handleRawEvent, handleMouseWheel, emitAction, createBaseAction,
        scrollSeq, moveSeq, isScrollBoundary, isMoveBoundary, altFrom, hcb,
        hs]
  | mouseMoved c =>
    cases hbd : (s.isLeftButtonDown || s.isDragging)
    · cases hm : s.isMoving <;>
        simp [handleRawEvent, handleMouseMoved, emitAction, createBaseAction,
          scrollSeq, moveSeq, isScrollBoundary, isMoveBoundary, altFrom, hcb,
          hbd, hm]
    · simp [handleRawEvent, handleMouseMoved, hbd, scrollSeq, moveSeq,
        altFrom, hcb]

/-- Scroll/hover invariant through one event-loop step. -/
theorem scrollMoveInv_stepEvent (s : InputState) (te : Int × RawEvent)
    (hcb : s.hasCallback = true) :
    (stepEvent s te).1.hasCallback = true ∧
    (stepEvent s te).1.isRunning = s.isRunning ∧
    altFrom .scroll_start .scroll_end s.isScrolling
        (scrollSeq (stepEvent s te).2) =
      some (stepEvent s te).1.isScrolling ∧
    altFrom .mouseover_start .mouseover_end s.isMoving
        (moveSeq (stepEvent s te).2) =
      some (stepEvent s te).1.isMoving := by
  exact scrollMoveInv_comp (scrollMoveInv_advanceTimers s te.1 hcb)
    (scrollMoveInv_handleRawEvent _ te.1 te.2
      (scrollMoveInv_advanceTimers s te.1 hcb).1)

/-- Scroll/hover invariant through a whole trace. -/
theorem scrollMoveInv_runFrom (trace : List (Int × RawEvent))
    (s : InputState) (hcb : s.hasCallback = true) :
    (runFrom s trace).1.hasCallback = true ∧
    (runFrom s trace).1.isRunning = s.isRunning ∧
    altFrom .scroll_start .scroll_end s.isScrolling
        (scrollSeq (runFrom s trace).2) =
      some (runFrom s trace).1.isScrolling ∧
    altFrom .mouseover_start .mouseover_end s.isMoving
        (moveSeq (runFrom s trace).2) =
      some (runFrom s trace).1.isMoving := by
  induction trace generalizing s with
  | nil => simp [runFrom, scrollSeq, moveSeq, altFrom, hcb]
  | cons te rest ih =>
    have h1 := scrollMoveInv_stepEvent s te hcb
    have h2 := ih (stepEvent s te).1 h1.1
    simpa [runFrom] using scrollMoveInv_comp h1 h2

/-- On `stop` of a running service, the emitted force-close actions leave
both the scroll and the hover session closed. -/
theorem scrollMoveInv_stop (s : InputState) (now : Int)
    (hcb : s.hasCallback = true) (hrun : s.isRunning = true) :
    altFrom .scroll_start .scroll_end s.isScrolling
        (scrollSeq (stop s now).2) = some false ∧
    altFrom .mouseover_start .mouseover_end s.isMoving
        (moveSeq (stop s now).2) = some false := by
  cases hs : s.isScrolling <;> cases hm : s.isMoving <;>
    simp [stop, emitScrollEnd, emitMoveEnd, emitAction, createBaseAction,
      scrollSeq, moveSeq, isScrollBoundary, isMoveBoundary, altFrom, hcb,
      hrun, hs, hm]

end Recorder

namespace Recorder

/-- Claim C7, counterexample: stopping mid-drag emits no `drag_end` — the
full emitted sequence of the session (stop included) is a click followed by
an unmatched `drag_start`, so not every `_start` action of any kind has a
corresponding `_end`. -/
theorem stop_mid_drag_cex :
    ((runFrom initialState midDragTrace).2 ++
        (stop (runFrom initialState midDragTrace).1 20).2).map Action.type =
      [ActionType.click, ActionType.drag_start] ∧
    ¬ ActionType.drag_end ∈
      ((runFrom initialState midDragTrace).2 ++
        (stop (runFrom initialState midDragTrace).1 20).2).map Action.type := by
  exact ⟨by decide, by decide⟩

/-- Claim C7, amended: on stop of a running normalizer any open scroll or
hover session is force-closed by emitting the matching `_end` action before
teardown, so in the full emitted sequence of a session ending in a stop every
`scroll_start` and every `mouseover_start` has its corresponding `_end` after
it (the boundary subsequences alternate and end closed); a drag that is
active at stop time is however torn down without a `drag_end`. -/
theorem stop_closes_scroll_and_hover :
    (∀ (s : InputState) (now : Int), s.isRunning = true →
      s.hasCallback = true →
      (stop s now).2.map Action.type =
        (if s.isScrolling then [ActionType.scroll_end] else []) ++
        (if s.isMoving then [ActionType.mouseover_end] else []) ∧
      (stop s now).1.isScrolling = false ∧
      (stop s now).1.isMoving = false ∧
      (stop s now).1.scrollTimeout = none ∧
      (stop s now).1.moveTimeout = none) ∧
    (∀ (trace : List (Int × RawEvent)) (now : Int),
      altFrom .scroll_start .scroll_end false
        (scrollSeq ((runFrom initialState trace).2 ++
          (stop (runFrom initialState trace).1 now).2)) = some false ∧
      altFrom .mouseover_start .mouseover_end false
        (moveSeq ((runFrom initialState trace).2 ++
          (stop (runFrom initialState trace).1 now).2)) = some false) := by
  constructor
  · intro s now hrun hcb
    cases hs : s.isScrolling <;> cases hm : s.isMoving <;>
      simp [stop, emitScrollEnd, emitMoveEnd, emitAction, createBaseAction,
        hrun, hcb, hs, hm]
  · intro trace now
    have hrf := scrollMoveInv_runFrom trace initialState rfl
    have hstop := scrollMoveInv_stop (runFrom initialState trace).1 now
      hrf.1 (hrf.2.1.trans rfl)
    constructor
    · rw [scrollSeq_append, altFrom_append]
      have h0 : initialState.isScrolling = false := rfl
      rw [h0] at hrf
      rw [hrf.2.2.1, Option.some_bind, hstop.1]
    · rw [moveSeq_append, altFrom_append]
      have h0 : initialState.isMoving = false := rfl
      rw [h0] at hrf
      rw [hrf.2.2.2, Option.some_bind, hstop.2]

/-- Witness for `stop_closes_scroll_and_hover`: stopping with an open scroll
and an open hover emits both `_end` actions, and a short hover-only trace
followed by stop is fully balanced. -/
theorem stop_closes_scroll_and_hover_witness :
    (stop { initialState with
        isScrolling := true
        isMoving := true } 50).2.map Action.type =
      (if ({ initialState with
              isScrolling := true
              isMoving := true } : InputState).isScrolling then
        [ActionType.scroll_end] else []) ++
      (if ({ initialState with
              isScrolling := true
              isMoving := true } : InputState).isMoving then
        [ActionType.mouseover_end] else []) ∧
    altFrom .scroll_start .scroll_end false
      (scrollSeq ((runFrom initialState [(0, .mouseMoved { x := 1, y := 1 })]).2 ++
        (stop (runFrom initialState [(0, .mouseMoved { x := 1, y := 1 })]).1
          40).2)) = some false :=
  ⟨(stop_closes_scroll_and_hover.1 { initialState with
      isScrolling := true
      isMoving := true } 50 rfl rfl).1,
   (stop_closes_scroll_and_hover.2 [(0, .mouseMoved { x := 1, y := 1 })]
      40).1⟩

end Recorder

namespace Recorder

/-- Timer callbacks never emit drag boundaries nor touch the drag flags. -/
theorem dragFrame_emitScrollEnd (s : InputState) (d : Int) :
    dragSeq (emitScrollEnd s d).2 = [] ∧
    (emitScrollEnd s d).1.isDragging = s.isDragging ∧
    (emitScrollEnd s d).1.isLeftButtonDown = s.isLeftButtonDown := by
  cases hs : s.isScrolling <;> cases hcb : s.hasCallback <;>
    simp [emitScrollEnd, emitAction, createBaseAction, dragSeq,
      isDragBoundary, hs, hcb]

/-- Timer callbacks never emit drag boundaries nor touch the drag flags. -/
theorem dragFrame_emitMoveEnd (s : InputState) (d : Int) :
    dragSeq (emitMoveEnd s d).2 = [] ∧
    (emitMoveEnd s d).1.isDragging = s.isDragging ∧
    (emitMoveEnd s d).1.isLeftButtonDown = s.isLeftButtonDown := by
  cases hm : s.isMoving <;> cases hcb : s.hasCallback <;>
    simp [emitMoveEnd, emitAction, createBaseAction, dragSeq,
      isDragBoundary, hm, hcb]

/-- Timer delivery never emits drag boundaries nor touches the drag flags. -/
theorem dragFrame_advanceTimers (s : InputState) (t : Int) :
    dragSeq (advanceTimers s t).2 = [] ∧
    (advanceTimers s t).1.isDragging = s.isDragging ∧
    (advanceTimers s t).1.isLeftButtonDown = s.isLeftButtonDown := by
  unfold advanceTimers
  cases h1 : dueTimer t s.scrollTimeout with
  | none =>
    cases h2 : dueTimer t s.moveTimeout with
    | none => simp [dragSeq]
    | some dm => exact dragFrame_emitMoveEnd s dm
  | some ds =>
    cases h2 : dueTimer t s.moveTimeout with
    | none => exact dragFrame_emitScrollEnd s ds
    | some dm =>
      simp only []
      split
      · have ha := dragFrame_emitScrollEnd s ds
        have hb := dragFrame_emitMoveEnd (emitScrollEnd s ds).1 dm
        refine ⟨?_, ?_, ?_⟩
        · rw [dragSeq_append, ha.1, hb.1]
          rfl
        · exact hb.2.1.trans ha.2.1
        · exact hb.2.2.trans ha.2.2
      · have ha := dragFrame_emitMoveEnd s dm
        have hb := dragFrame_emitScrollEnd (emitMoveEnd s dm).1 ds
        refine ⟨?_, ?_, ?_⟩
        · rw [dragSeq_append, ha.1, hb.1]
          rfl
        · exact hb.2.1.trans ha.2.1
        · exact hb.2.2.trans ha.2.2

/-- Drag alternation invariant through the dispatch of any raw event, given
a well-formed button state: the button cannot go down while it is already
down, and a drag can only be active while the button is down. -/
theorem dragInv_handleRawEvent (s : InputState) (now : Int) (e : RawEvent)
    (hcb : s.hasCallback = true)
    (himp : s.isDragging = true → s.isLeftButtonDown = true)
    (hdown : (∃ c, e = RawEvent.leftMouseDown c) →
      s.isLeftButtonDown = false) :
    altFrom .drag_start .drag_end s.isDragging
        (dragSeq (handleRawEvent s now e).2) =
      some (handleRawEvent s now e).1.isDragging ∧
    ((handleRawEvent s now e).1.isDragging = true →
      (handleRawEvent s now e).1.isLeftButtonDown = true) ∧
    (handleRawEvent s now e).1.isLeftButtonDown =
      (match leftButtonSignal e with
       | some b => b
       | none => s.isLeftButtonDown) ∧
    (handleRawEvent s now e).1.hasCallback = true := by
  cases e with
  | leftMouseDown c =>
    have hb : s.isLeftButtonDown = false := hdown ⟨c, rfl⟩
    have hd : s.isDragging = false := by
      cases hdr : s.isDragging
      · rfl
      · rw [himp hdr] at hb
        exact absurd hb (by simp)
    simp [handleRawEvent, handleLeftMouseDown, handleMouseDown, emitAction,
      createBaseAction, dragSeq, isDragBoundary, altFrom, leftButtonSignal,
      hcb, hd]
  | leftMouseUp c =>
    cases hd : s.isDragging <;>
      simp [handleRawEvent, handleLeftMouseUp, emitAction, createBaseAction,
        dragSeq, isDragBoundary, altFrom, leftButtonSignal, hcb, hd]
  | leftMouseDragged c =>
    cases hb : s.isLeftButtonDown
    · have hd : s.isDragging = false := by
        cases hdr : s.isDragging
        · rfl
        · rw [himp hdr] at hb
          exact absurd hb (by simp)
      simp [handleRawEvent, handleLeftMouseDragged, hb, hd, dragSeq, altFrom,
        leftButtonSignal, hcb]
    · cases hd : s.isDragging
      · cases hm : s.isMoving <;>
          simp [handleRawEvent, handleLeftMouseDragged, emitMoveEnd,
            emitAction, createBaseAction, dragSeq, isDragBoundary, altFrom,
            leftButtonSignal, hcb, hb, hd, hm]
      · simp [handleRawEvent, handleLeftMouseDragged, hb, hd, dragSeq,
          altFrom, leftButtonSignal, hcb]
  | rightMouseDown c =>
    refine ⟨?_, ?_, ?_, ?_⟩ <;>
      simp [handleRawEvent, handleRightMouseDown, handleMouseDown,
        emitAction, createBaseAction, dragSeq, isDragBoundary, altFrom,
        leftButtonSignal, hcb]
    exact himp
  | otherMouseDown c =>
    refine ⟨?_, ?_, ?_, ?_⟩ <;>
      simp [handleRawEvent, handleOtherMouseDown, handleMouseDown,
        emitAction, createBaseAction, dragSeq, isDragBoundary, altFrom,
        leftButtonSignal, hcb]
    exact himp
  | keyDown =>
    refine ⟨?_, ?_, ?_, ?_⟩ <;>
      simp [handleRawEvent, handleKeyDown, emitAction, createBaseAction,
        dragSeq, isDragBoundary, altFrom, leftButtonSignal, hcb]
    exact himp
  | scrollWheel c =>
    cases hs : s.isScrolling <;>
      refine ⟨?_, ?_, ?_, ?_⟩ <;>
        simp [handleRawEvent, handleMouseWheel, emitAction, createBaseAction,
          dragSeq, isDragBoundary, altFrom, leftButtonSignal, hcb, hs]
    · exact himp
    · exact himp
  | mouseMoved c =>
    cases hbd : (s.isLeftButtonDown || s.isDragging)
    · cases hm : s.isMoving <;>
        refine ⟨?_, ?_, ?_, ?_⟩ <;>
          simp [handleRawEvent, handleMouseMoved, emitAction,
            createBaseAction, dragSeq, isDragBoundary, altFrom,
            leftButtonSignal, hcb, hbd, hm]
      · exact himp
      · exact himp
    · refine ⟨?_, ?_, ?_, ?_⟩ <;>
        simp [handleRawEvent, handleMouseMoved, hbd, dragSeq, altFrom,
          leftButtonSignal, hcb]
      exact himp

end Recorder

namespace Recorder

/-- Drag alternation invariant through one event-loop step. -/
theorem dragInv_stepEvent (s : InputState) (te : Int × RawEvent)
    (hcb : s.hasCallback = true)
    (himp : s.isDragging = true → s.isLeftButtonDown = true)
    (hdown : (∃ c, te.2 = RawEvent.leftMouseDown c) →
      s.isLeftButtonDown = false) :
    altFrom .drag_start .drag_end s.isDragging
        (dragSeq (stepEvent s te).2) =
      some (stepEvent s te).1.isDragging ∧
    ((stepEvent s te).1.isDragging = true →
      (stepEvent s te).1.isLeftButtonDown = true) ∧
    (stepEvent s te).1.isLeftButtonDown =
      (match leftButtonSignal te.2 with
       | some b => b
       | none => s.isLeftButtonDown) ∧
    (stepEvent s te).1.hasCallback = true := by
  have hT := dragFrame_advanceTimers s te.1
  have hcb1 := (scrollMoveInv_advanceTimers s te.1 hcb).1
  have himp1 : (advanceTimers s te.1).1.isDragging = true →
      (advanceTimers s te.1).1.isLeftButtonDown = true := by
    rw [hT.2.1, hT.2.2]
    exact himp
  have hdown1 : (∃ c, te.2 = RawEvent.leftMouseDown c) →
      (advanceTimers s te.1).1.isLeftButtonDown = false := by
    rw [hT.2.2]
    exact hdown
  have hR := dragInv_handleRawEvent (advanceTimers s te.1).1 te.1 te.2 hcb1
    himp1 hdown1
  have hR1 := hR.1
  rw [hT.2.1] at hR1
  refine ⟨?_, ?_, ?_, ?_⟩
  · simp only [stepEvent]
    rw [dragSeq_append, hT.1, List.nil_append]
    exact hR1
  · simp only [stepEvent]
    exact hR.2.1
  · simp only [stepEvent]
    have h3 := hR.2.2.1
    rw [hT.2.2] at h3
    exact h3
  · simp only [stepEvent]
    exact hR.2.2.2

/-- Drag alternation invariant through a whole physically well-formed trace:
the drag boundary subsequence alternates `drag_start`, `drag_end`, ... and
ends open exactly when the final state is mid-drag. -/
theorem dragInv_runFrom (trace : List (Int × RawEvent)) (s : InputState)
    (hcb : s.hasCallback = true)
    (himp : s.isDragging = true → s.isLeftButtonDown = true)
    (hwf : altDownUp s.isLeftButtonDown (leftSignals trace) = true) :
    altFrom .drag_start .drag_end s.isDragging
        (dragSeq (runFrom s trace).2) =
      some (runFrom s trace).1.isDragging := by
  induction trace generalizing s with
  | nil => simp [runFrom, dragSeq, altFrom]
  | cons te rest ih =>
    have hsigs : leftSignals (te :: rest) =
        (match leftButtonSignal te.2 with
         | some b => [b]
         | none => []) ++ leftSignals rest := by
      cases h : leftButtonSignal te.2 <;>
        simp [leftSignals, List.filterMap_cons, h]
    rw [hsigs] at hwf
    cases hs : leftButtonSignal te.2 with
    | none =>
      rw [hs] at hwf
      have hdown : (∃ c, te.2 = RawEvent.leftMouseDown c) →
          s.isLeftButtonDown = false := by
        rintro ⟨c, hc⟩
        rw [hc] at hs
        simp [leftButtonSignal] at hs
      have hstep := dragInv_stepEvent s te hcb himp hdown
      have hwf2 : altDownUp (stepEvent s te).1.isLeftButtonDown
          (leftSignals rest) = true := by
        rw [hstep.2.2.1, hs]
        simpa using hwf
      have hrest := ih (stepEvent s te).1 hstep.2.2.2 hstep.2.1 hwf2
      simp only [runFrom]
      rw [dragSeq_append, altFrom_append, hstep.1, Option.some_bind]
      exact hrest
    | some b =>
      rw [hs] at hwf
      cases b with
      | true =>
        have hb : s.isLeftButtonDown = false := by
          cases hbv : s.isLeftButtonDown
          · rfl
          · rw [hbv] at hwf
            simp [altDownUp] at hwf
        have hdown : (∃ c, te.2 = RawEvent.leftMouseDown c) →
            s.isLeftButtonDown = false := fun _ => hb
        have hstep := dragInv_stepEvent s te hcb himp hdown
        have hwf2 : altDownUp (stepEvent s te).1.isLeftButtonDown
            (leftSignals rest) = true := by
          rw [hstep.2.2.1, hs]
          rw [hb] at hwf
          simpa [altDownUp] using hwf
        have hrest := ih (stepEvent s te).1 hstep.2.2.2 hstep.2.1 hwf2
        simp only [runFrom]
        rw [dragSeq_append, altFrom_append, hstep.1, Option.some_bind]
        exact hrest
      | false =>
        have hb : s.isLeftButtonDown = true := by
          cases hbv : s.isLeftButtonDown
          · rw [hbv] at hwf
            simp [altDownUp] at hwf
          · rfl
        have hdown : (∃ c, te.2 = RawEvent.leftMouseDown c) →
            s.isLeftButtonDown = false := by
          rintro ⟨c, hc⟩
          rw [hc] at hs
          simp [leftButtonSignal] at hs
        have hstep := dragInv_stepEvent s te hcb himp hdown
        have hwf2 : altDownUp (stepEvent s te).1.isLeftButtonDown
            (leftSignals rest) = true := by
          rw [hstep.2.2.1, hs]
          rw [hb] at hwf
          simpa [altDownUp] using hwf
        have hrest := ih (stepEvent s te).1 hstep.2.2.2 hstep.2.1 hwf2
        simp only [runFrom]
        rw [dragSeq_append, altFrom_append, hstep.1, Option.some_bind]
        exact hrest

end Recorder

namespace Recorder

/-- Claim C4: button-down records the drag origin and resets the drag flag;
while a drag is already active further drag events emit nothing (so
`drag_start` is emitted at most once per continuous button-down span); the
first drag event of a span emits a `drag_start` carrying the coordinates
captured at button-down (not the current drag position) and activates the
drag; button-up emits a `drag_end` exactly when a drag was active; and over
any physically well-formed trace (downs and ups alternate) the emitted drag
boundaries alternate `drag_start`, `drag_end`, ... — every `drag_end` is
preceded by its matching `drag_start` in the same span. -/
theorem drag_detection :
    (∀ (s : InputState) (now : Int) (c : Coords),
      (handleLeftMouseDown s now c).1.dragStartCoords = c ∧
      (handleLeftMouseDown s now c).1.isDragging = false) ∧
    (∀ (s : InputState) (now : Int) (c : Coords), s.isDragging = true →
      (handleLeftMouseDragged s now c).2 = []) ∧
    (∀ (s : InputState) (now : Int) (c : Coords),
      s.isLeftButtonDown = true → s.isDragging = false →
      s.hasCallback = true →
      (handleLeftMouseDragged s now c).2.getLast? = some
        { sessionId := s.sessionId
          type := .drag_start
          happenedAt := now
          relativeTimeMs := now - s.sessionStartTime
          coords := s.dragStartCoords
          pointerMeta := some { button := .left
                                clickCount := s.clickCount } } ∧
      (handleLeftMouseDragged s now c).1.isDragging = true) ∧
    (∀ (s : InputState) (now : Int) (c : Coords), s.hasCallback = true →
      (handleLeftMouseUp s now c).2.map Action.type =
        (if s.isDragging then [ActionType.drag_end] else [])) ∧
    (∀ trace : List (Int × RawEvent),
      altDownUp false (leftSignals trace) = true →
      altFrom .drag_start .drag_end false
          (dragSeq (runFrom initialState trace).2) =
        some (runFrom initialState trace).1.isDragging) := by
  refine ⟨?_, ?_, ?_, ?_, ?_⟩
  · intro s now c
    simp [handleLeftMouseDown, handleMouseDown]
  · intro s now c hd
    cases hb : s.isLeftButtonDown <;>
      simp [handleLeftMouseDragged, hb, hd]
  · intro s now c hb hd hcb
    cases hm : s.isMoving <;>
      simp [handleLeftMouseDragged, emitMoveEnd, emitAction,
        createBaseAction, List.getLast?, hb, hd, hm, hcb]
  · intro s now c hcb
    cases hd : s.isDragging <;>
      simp [handleLeftMouseUp, emitAction, createBaseAction, hd, hcb]
  · intro trace hwf
    exact dragInv_runFrom trace initialState rfl
      (fun h => absurd h (by decide)) hwf

/-- Witness for `drag_detection` at concrete states and on the concrete
mid-drag trace. -/
theorem drag_detection_witness :
    (handleLeftMouseDown initialState 3 { x := 8, y := 9 }).1.dragStartCoords
      = { x := 8, y := 9 } ∧
    (handleLeftMouseDragged { initialState with
        isLeftButtonDown := true
        isDragging := true } 5 { x := 1, y := 1 }).2 = [] ∧
    (handleLeftMouseUp { initialState with
        isLeftButtonDown := true
        isDragging := true } 6 { x := 2, y := 2 }).2.map Action.type =
      (if ({ initialState with
              isLeftButtonDown := true
              isDragging := true } : InputState).isDragging then
        [ActionType.drag_end] else []) ∧
    altFrom .drag_start .drag_end false
        (dragSeq (runFrom initialState midDragTrace).2) =
      some (runFrom initialState midDragTrace).1.isDragging :=
  ⟨(drag_detection.1 initialState 3 { x := 8, y := 9 }).1,
   drag_detection.2.1 { initialState with
      isLeftButtonDown := true
      isDragging := true } 5 { x := 1, y := 1 } rfl,
   drag_detection.2.2.2.1 { initialState with
      isLeftButtonDown := true
      isDragging := true } 6 { x := 2, y := 2 } rfl,
   drag_detection.2.2.2.2 midDragTrace (by decide)⟩

end Recorder
